import Mathlib

/-!
Verification of the CF relationship-resolution engine of this repository
(`iris.fileformats.cf`, exercised by `lib/iris/tests/test_cf.py`) and of the
cube printout assembly (`lib/iris/_representation/cube_printout.py`).

The `iris/fileformats/cf.py` module itself is not among the given source
files; only its test suite is.  The definitions in namespace `IrisCF` are
therefore modelled from the specification's words (each doc comment says so),
with the concrete behaviour pinned by the assertions of
`lib/iris/tests/test_cf.py`, which is among the source files.  The
`CubePrinter` model in namespace `IrisPrintout` is translated directly from
`cube_printout.py`.
-/

namespace IrisCF

/-- Modelled from the spec: a `RawVariable` — an immutable view over the
store, with a unique name, an ordered dimension-name sequence, a shape of the
same length, and an attribute-name → value mapping with unique keys
(spec §3).  `isStr` records whether the payload is string-typed (the store's
dtype, needed to tell label variables from auxiliary coordinates), and
`labelData` is the string payload of a string-typed variable, indexed along
its label dimension (spec §4.4).  Attribute values are modelled as strings;
only their name-token content matters to classification and resolution. -/
structure CFVar where
  name : String
  dimensions : List String
  shape : List Nat
  isStr : Bool
  attributes : List (String × String)
  labelData : List String := []
  deriving DecidableEq, Repr

/-- Number of dimensions of a variable (`ndim` in the tests). -/
def CFVar.ndim (v : CFVar) : Nat := v.dimensions.length

/-- Modelled from the spec: the dataset as exposed by the RawVariableStore —
a sequence of variables plus a separate flat global-attribute mapping
(spec §3, §6). -/
structure Dataset where
  vars : List CFVar
  globalAttrs : List (String × String)
  deriving DecidableEq, Repr

/-- Lookup of a variable by name; `none` models the NotFound condition of
`cf_group[name]` on a missing name (spec §7). -/
def Dataset.find (ds : Dataset) (n : String) : Option CFVar :=
  ds.vars.find? (fun v => v.name = n)

/-- Whether a token is a `key:` of a `measure: name` / `formula_terms`
pair rather than a variable name. -/
def isKeyToken (t : String) : Bool := t.data.getLast? = some ':'

/-- Whitespace tokenizer, accumulating the current token reversed. -/
def wsTokensAux : List Char → List Char → List String
  | [], acc => if acc.isEmpty then [] else [String.mk acc.reverse]
  | c :: cs, acc =>
    if c = ' ' then
      (if acc.isEmpty then wsTokensAux cs []
       else String.mk acc.reverse :: wsTokensAux cs [])
    else wsTokensAux cs (c :: acc)

/-- Splits a string into whitespace-separated tokens. -/
def wsTokens (s : String) : List String := wsTokensAux s.data []

/-- Character-code comparison of two strings (their byte order on the ASCII
names occurring in CF attributes), used where the tests sort names. -/
def charsLe : List Char → List Char → Bool
  | [], _ => true
  | _ :: _, [] => false
  | c :: cs, d :: es =>
    if c.toNat < d.toNat then true
    else if d.toNat < c.toNat then false
    else charsLe cs es

/-- String order used for the deterministic sorted views. -/
def strLe (a b : String) : Bool := charsLe a.data b.data

/-- Insertion into a sorted list of names. -/
def insertSorted (x : String) : List String → List String
  | [] => [x]
  | y :: ys => if strLe x y then x :: y :: ys else y :: insertSorted x ys

/-- Insertion sort of names (the `sorted(...)` of the tests). -/
def sortNames : List String → List String
  | [] => []
  | x :: xs => insertSorted x (sortNames xs)

/-- Order-preserving deduplication, keeping the first occurrence. -/
def dedupNames : List String → List String
  | [] => []
  | x :: xs => x :: (dedupNames xs).filter (fun y => y ≠ x)

/-- Modelled from the spec: splits one name-valued attribute value into its
candidate variable names — whitespace-separated name tokens, with
`formula_terms` being `key: name` pairs and `cell_measures` being
`measure: name` pairs, whose `key:` tokens are not names (spec §4.2, §4.3). -/
def splitNames (attr value : String) : List String :=
  let toks := wsTokens value
  if attr = "formula_terms" || attr = "cell_measures" then
    toks.filter (fun t => !(isKeyToken t))
  else toks

/-- The name-valued reference attributes followed by the resolver
(spec §1, §4.3: "coordinates", "bounds", "cell_measures",
"ancillary_variables", "grid_mapping", "formula_terms", and the climatology
pointer). -/
def refAttrs : List String :=
  ["coordinates", "bounds", "cell_measures", "ancillary_variables",
   "grid_mapping", "formula_terms", "climatology"]

/-- The candidate variable names produced by one reference attribute of a
variable (empty when the attribute is not declared). -/
def CFVar.refsVia (v : CFVar) (attr : String) : List String :=
  match v.attributes.lookup attr with
  | some value => splitNames attr value
  | none => []

/-- Modelled from the spec: all candidate variable names a variable
references via its name-valued attributes (spec §4.3). -/
def referencedNames (v : CFVar) : List String :=
  refAttrs.flatMap (fun a => v.refsVia a)

/-- Whether some variable of the dataset references `n` via attribute
`attr`. -/
def referencedBy (ds : Dataset) (attr n : String) : Bool :=
  ds.vars.any (fun w => (w.refsVia attr).contains n)

/-- Whether some variable of the dataset references `n` via any reference
attribute. -/
def referencedAtAll (ds : Dataset) (n : String) : Bool :=
  ds.vars.any (fun w => (referencedNames w).contains n)

/-- A CF coordinate variable: a one-dimensional, non-string variable whose
name equals its dimension (the classic CF rule behind the spec's
CoordinateVariable category; `rlat`, `rlon`, `time` in the tests). -/
def isCoordinateVar (v : CFVar) : Bool :=
  v.dimensions = [v.name] && !v.isStr

/-- The semantic categories of spec §3 (non-exclusive). -/
inductive Category where
  | data | coordinate | auxCoordinate | bounds | cellMeasure
  | gridMapping | label | ancillary | climatology
  deriving DecidableEq, Repr

/-- Modelled from the spec: category assignment by attribute-presence
heuristics and cross-variable reference scanning (spec §4.2): a variable
referenced by another's "bounds" is a bounds variable; one carrying
"grid_mapping_name" is a grid mapping; a string-typed variable referenced as
a coordinate is a label; a non-string one is an auxiliary coordinate; a
variable referenced by a "climatology" pointer is a climatology-bounds
variable; a variable referenced by nothing and not itself a coordinate is a
data variable.  Categories are additive: one variable may hold several. -/
def hasCategory (ds : Dataset) (v : CFVar) : Category → Bool
  | .coordinate => isCoordinateVar v
  | .label => referencedBy ds "coordinates" v.name && v.isStr
  | .auxCoordinate =>
      referencedBy ds "coordinates" v.name && !v.isStr && !(isCoordinateVar v)
  | .bounds => referencedBy ds "bounds" v.name
  | .climatology => referencedBy ds "climatology" v.name
  | .cellMeasure => referencedBy ds "cell_measures" v.name
  | .ancillary => referencedBy ds "ancillary_variables" v.name
  | .gridMapping => (v.attributes.lookup "grid_mapping_name").isSome
  | .data => !(isCoordinateVar v) && !(referencedAtAll ds v.name)

/-- A category-filtered view of the dataset (the `coordinates`, `labels`,
`data_variables`, … mappings of spec §3), derived from the single source of
truth `hasCategory`. -/
def categoryView (ds : Dataset) (c : Category) : List CFVar :=
  ds.vars.filter (fun v => hasCategory ds v c)

/-- The names of a category view. -/
def categoryNames (ds : Dataset) (c : Category) : List String :=
  (categoryView ds c).map (fun v => v.name)

/-- The resolved outgoing references of `v`: referenced names that resolve to
an existing, distinct variable; dangling names are dropped (spec §4.3, §7). -/
def resolvedRefs (ds : Dataset) (v : CFVar) : List String :=
  (referencedNames v).filter (fun n => n ≠ v.name && (ds.find n).isSome)

/-- The names of the variables that reference `v` back (the mutual edge of
spec §4.3). -/
def referencers (ds : Dataset) (v : CFVar) : List String :=
  ((ds.vars.filter
      (fun w => w.name ≠ v.name && (referencedNames w).contains v.name)).map
    (fun w => w.name))

/-- The coordinate variables of the dimensions `v` spans (other than `v`
itself).  Modelled from the behaviour pinned by
`test_variable_cf_group_pass_0`: a variable's cf_group also holds the
coordinate variable of every dimension the variable spans, and this
inclusion is not mutual. -/
def spannedDimCoords (ds : Dataset) (v : CFVar) : List String :=
  v.dimensions.filter (fun d =>
    d ≠ v.name &&
      (match ds.find d with
       | some w => isCoordinateVar w
       | none => false))

/-- Modelled from the spec and the tests: the names in `v.cf_group` — the
resolved outgoing references, plus the variables referencing `v` back, plus
the coordinate variables of the dimensions `v` spans (spec §3, §4.3;
`test_variable_cf_group_pass_0`). -/
def cfGroupNames (ds : Dataset) (v : CFVar) : List String :=
  dedupNames (resolvedRefs ds v ++ referencers ds v ++ spannedDimCoords ds v)

/-- Modelled from the spec's words alone, for comparison: spec §8 describes
`cf_group` as containing exactly the set of names a variable references plus
the names referencing it back — with no mention of spanned-dimension
coordinates. -/
def specOneHopNames (ds : Dataset) (v : CFVar) : List String :=
  dedupNames (resolvedRefs ds v ++ referencers ds v)

/-- The members of `v.cf_group` that carry category `c` (the sub-group views
`cf_group.labels`, `cf_group.coordinates`, `cf_group.climatology` of the
tests). -/
def cfGroupView (ds : Dataset) (v : CFVar) (c : Category) : List String :=
  (cfGroupNames ds v).filter (fun n =>
    match ds.find n with
    | some w => hasCategory ds w c
    | none => false)

/-- Modelled from the spec: `cf_label_dimensions(data_var)` — the subsequence
of the data variable's dimensions that the label variable also spans
(spec §4.4). -/
def cf_label_dimensions (label dataVar : CFVar) : List String :=
  dataVar.dimensions.filter (fun d => label.dimensions.contains d)

/-- Modelled from the spec: `cf_label_data(data_var)` — the label variable's
string payload aligned with position along the shared dimension, the first
element corresponding to index 0 along that dimension (spec §4.4).  The model
stores the payload (`labelData`) already indexed along the label dimension,
so the alignment is the identity regardless of which position the shared
dimension occupies in either variable's dimension ordering. -/
def cf_label_data (label _dataVar : CFVar) : List String := label.labelData

/-- Records one attribute as touched ("used") on first access
(spec §4.1). -/
def touch (used : List String) (a : String) : List String :=
  if a ∈ used then used else a :: used

/-- Insertion into an attribute list sorted by name. -/
def insertAttrSorted (x : String × String) :
    List (String × String) → List (String × String)
  | [] => [x]
  | y :: ys => if strLe x.1 y.1 then x :: y :: ys else y :: insertAttrSorted x ys

/-- Insertion sort of attributes by name (the deterministic ordering of
`cf_attrs`, spec §4.1, §6). -/
def sortAttrs : List (String × String) → List (String × String)
  | [] => []
  | x :: xs => insertAttrSorted x (sortAttrs xs)

/-- Modelled from the spec: a ClassifiedVariable's mutable aspect — the
wrapped variable plus its attribute touch state (spec §3). -/
structure ClassifiedVar where
  var : CFVar
  usedAttrs : List String
  deriving DecidableEq, Repr

/-- `cf_attrs()`: the declared (name, value) pairs sorted by name
(spec §6; `test_coordinates_pass_0`). -/
def cf_attrs (cv : ClassifiedVar) : List (String × String) :=
  sortAttrs cv.var.attributes

/-- An attribute access: records the attribute as used. -/
def readAttr (cv : ClassifiedVar) (a : String) : ClassifiedVar :=
  { cv with usedAttrs := touch cv.usedAttrs a }

/-- `cf_attrs_used()`: the declared attributes read so far, in the
deterministic declared ordering (spec §4.1). -/
def cf_attrs_used (cv : ClassifiedVar) : List (String × String) :=
  (cf_attrs cv).filter (fun p => p.1 ∈ cv.usedAttrs)

/-- `cf_attrs_unused()`: the complement of `cf_attrs_used` against the full
declared set, same ordering (spec §4.1). -/
def cf_attrs_unused (cv : ClassifiedVar) : List (String × String) :=
  (cf_attrs cv).filter (fun p => p.1 ∉ cv.usedAttrs)

/-- `cf_attrs_reset()`: clears the touch state only (spec §4.1). -/
def cf_attrs_reset (cv : ClassifiedVar) : ClassifiedVar :=
  { cv with usedAttrs := [] }

/-- Modelled from the spec: the RawVariableStore behind one variable — its
declared attribute-name set and the raw value fetch (spec §6).  The tests
observe it through a mock whose `ncattrs` call count is recorded. -/
structure MockStore where
  attrNames : List String
  attrValue : String → String

/-- Modelled from the spec: the per-variable AttributeAccessCache state —
the declared attribute-name set fetched from the store, the memoized values,
the touch state, and the observable store-access counts (spec §4.1;
`TestCaching.test_cached` counts `ncattrs` calls). -/
structure CacheState where
  declared : List String
  fetched : List (String × String)
  used : List String
  nameSetFetches : Nat
  valueFetches : List String
  deriving Repr

/-- Modelled from the spec and `TestCaching.test_cached`: constructing the
variable wrapper fetches the backing attribute-name set exactly once. -/
def initCache (st : MockStore) : CacheState :=
  { declared := st.attrNames, fetched := [], used := [],
    nameSetFetches := 1, valueFetches := [] }

/-- Modelled from the spec: `get(var, attr_name)` — returns the raw value,
fetching from the store at most once per attribute for the life of the
cache, and records the name as used on first access; an undeclared name is
the AttributeMissing condition (spec §4.1, §7). -/
def getAttr (st : MockStore) (c : CacheState) (a : String) :
    Option String × CacheState :=
  if a ∈ c.declared then
    match c.fetched.lookup a with
    | some v => (some v, { c with used := touch c.used a })
    | none =>
        let v := st.attrValue a
        (some v, { c with fetched := (a, v) :: c.fetched,
                          used := touch c.used a,
                          valueFetches := a :: c.valueFetches })
  else (none, c)

/-- A sequence of attribute accesses against one cache. -/
def runGets (st : MockStore) (c : CacheState) : List String → CacheState
  | [] => c
  | a :: as => runGets st (getAttr st c a).2 as

/-- `reset()` on the cache: clears the used-set only (spec §4.1). -/
def cacheReset (c : CacheState) : CacheState := { c with used := [] }

/-! ### The dataset of `TestCFReader` / `test_variable_cf_group_pass_0`
(`small_rotPole_precipitation.nc`), reconstructed from the assertions of
`lib/iris/tests/test_cf.py`. -/

/-- The `pr` data variable of the rotated-pole test file. -/
def prVar : CFVar :=
  { name := "pr", dimensions := ["time", "rlat", "rlon"],
    shape := [4, 190, 174], isStr := false,
    attributes :=
      [("_FillValue", "1e+30"), ("cell_methods", "time: mean"),
       ("coordinates", "lon lat"), ("grid_mapping", "rotated_pole"),
       ("long_name", "Precipitation"), ("missing_value", "1e+30"),
       ("standard_name", "precipitation_flux"), ("units", "kg m-2 s-1")] }

/-- The `time` coordinate variable of the rotated-pole test file. -/
def timeVar : CFVar :=
  { name := "time", dimensions := ["time"], shape := [4], isStr := false,
    attributes :=
      [("axis", "T"), ("bounds", "time_bnds"), ("calendar", "gregorian"),
       ("long_name", "Julian Day"),
       ("units", "days since 1950-01-01 00:00:00.0")] }

/-- The `time_bnds` bounds variable of the rotated-pole test file. -/
def timeBndsVar : CFVar :=
  { name := "time_bnds", dimensions := ["time", "time_bnds"],
    shape := [4, 2], isStr := false, attributes := [] }

/-- The `rlat` coordinate variable of the rotated-pole test file. -/
def rlatVar : CFVar :=
  { name := "rlat", dimensions := ["rlat"], shape := [190], isStr := false,
    attributes :=
      [("axis", "Y"), ("long_name", "rotated latitude"),
       ("standard_name", "grid_latitude"), ("units", "degrees")] }

/-- The `rlon` coordinate variable of the rotated-pole test file. -/
def rlonVar : CFVar :=
  { name := "rlon", dimensions := ["rlon"], shape := [174], isStr := false,
    attributes :=
      [("axis", "X"), ("long_name", "rotated longitude"),
       ("standard_name", "grid_longitude"), ("units", "degrees")] }

/-- The `lat` auxiliary-coordinate variable of the rotated-pole test file. -/
def latVar : CFVar :=
  { name := "lat", dimensions := ["rlat", "rlon"], shape := [190, 174],
    isStr := false,
    attributes :=
      [("long_name", "latitude"), ("standard_name", "latitude"),
       ("units", "degrees_north")] }

/-- The `lon` auxiliary-coordinate variable of the rotated-pole test file. -/
def lonVar : CFVar :=
  { name := "lon", dimensions := ["rlat", "rlon"], shape := [190, 174],
    isStr := false,
    attributes :=
      [("long_name", "longitude"), ("standard_name", "longitude"),
       ("units", "degrees_east")] }

/-- The `rotated_pole` grid-mapping variable of the rotated-pole test file. -/
def rotatedPoleVar : CFVar :=
  { name := "rotated_pole", dimensions := [], shape := [], isStr := false,
    attributes :=
      [("grid_mapping_name", "rotated_latitude_longitude"),
       ("grid_north_pole_latitude", "18.0"),
       ("grid_north_pole_longitude", "-140.75")] }

/-- The rotated-pole precipitation dataset of `TestCFReader`. -/
def rotPoleDS : Dataset :=
  { vars := [prVar, timeVar, timeBndsVar, rlatVar, rlonVar, latVar, lonVar,
             rotatedPoleVar],
    globalAttrs :=
      [("Conventions", "CF-1.0"), ("NCO", "netCDF Operators"),
       ("experiment", "ER3"), ("history", "processing history"),
       ("institution", "DMI"), ("source", "HIRHAM")] }

/-! ### The dataset of `TestClimatology` / `TestLabels.test_label_dim_start`
(`A1B-99999a-river-sep-2070-2099.nc`), reconstructed from the test
assertions and the spec's label-alignment and climatology examples. -/

/-- The `temp_dmax_tmean_abs` data variable of the river test file. -/
def tempVar : CFVar :=
  { name := "temp_dmax_tmean_abs", dimensions := ["time", "georegion"],
    shape := [1, 3], isStr := false,
    attributes := [("coordinates", "region_name")] }

/-- The `time` climatological coordinate variable of the river test file. -/
def climTimeVar : CFVar :=
  { name := "time", dimensions := ["time"], shape := [1], isStr := false,
    attributes := [("climatology", "climatology_bounds")] }

/-- The `climatology_bounds` variable of the river test file: one
climatological period, shape (1, 2). -/
def climBoundsVar : CFVar :=
  { name := "climatology_bounds", dimensions := ["time", "bnds"],
    shape := [1, 2], isStr := false, attributes := [] }

/-- The `region_name` label variable of the river test file, spanning the
`georegion` dimension, payload starting at "Anglian". -/
def regionNameVar : CFVar :=
  { name := "region_name", dimensions := ["georegion", "strlen"],
    shape := [3, 66], isStr := true, attributes := [],
    labelData := ["Anglian", "Thames", "Severn"] }

/-- The river (label and climatology) dataset of `TestClimatology` and
`TestLabels`. -/
def climDS : Dataset :=
  { vars := [tempVar, climTimeVar, climBoundsVar, regionNameVar],
    globalAttrs := [] }

/-- A label variable whose own storage places the string-length dimension
first (the `test_label_dim_end` configuration). -/
def instLabelVar : CFVar :=
  { name := "institution", dimensions := ["strlen", "ensemble"],
    shape := [88, 9], isStr := true, attributes := [],
    labelData := ["ECMWF"] }

/-- A data variable whose shared label dimension sits at position 0
(the `test_label_dim_end` configuration). -/
def tasVar : CFVar :=
  { name := "tas", dimensions := ["ensemble", "time", "lat2", "lon2"],
    shape := [9, 4, 2, 2], isStr := false,
    attributes := [("coordinates", "institution")] }

/-- A variable holding a dangling reference: its "coordinates" attribute
names `ghost`, which exists nowhere in its dataset. -/
def ghostRefVar : CFVar :=
  { name := "x", dimensions := ["t"], shape := [2], isStr := false,
    attributes := [("coordinates", "ghost")] }

/-- A dataset with a dangling name reference (spec §7). -/
def danglDS : Dataset :=
  { vars := [ghostRefVar], globalAttrs := [] }

/-- A two-attribute mock store (the shape of the mock of
`TestCaching.test_cached`). -/
def mockStoreX : MockStore :=
  { attrNames := ["x", "y"], attrValue := fun _ => "val" }

/-- A cache over `mockStoreX` that has already fetched and used
attribute `x`. -/
def cacheStateX : CacheState :=
  { declared := ["x", "y"], fetched := [("x", "val")], used := ["x"],
    nameSetFetches := 1, valueFetches := ["x"] }

end IrisCF

namespace IrisPrintout

/-- The dimension header of a cube summary
(`cube_summary.header.dimension_header` as read by `_make_table`). -/
structure DimensionHeader where
  scalar : Bool
  shape : List Nat
  dim_names : List String
  deriving DecidableEq, Repr

/-- The full header of a cube summary (`summ.header`). -/
structure FullHeader where
  nameunit : String
  dimension_header : DimensionHeader
  deriving DecidableEq, Repr

/-- One vector-section entry (`vec_summary` in `_make_table`). -/
structure VectorSummary where
  name : String
  dim_chars : List String
  extra : String
  deriving DecidableEq, Repr

/-- One vector section of a cube summary. -/
structure VectorSection where
  title : String
  contents : List VectorSummary
  deriving DecidableEq, Repr

/-- One scalar-section item (`.name` / `.content` as read by the
"scalar coordinate" branch; the "just strings" branches read `.name`
only). -/
structure ScalarItem where
  name : String
  content : String
  deriving DecidableEq, Repr

/-- One scalar section of a cube summary: the "attribute" branch reads the
parallel `names` / `values` lists, the others read `contents`. -/
structure ScalarSection where
  title : String
  contents : List ScalarItem
  names : List String
  values : List String
  deriving DecidableEq, Repr

/-- The parts of a `CubeSummary` that `CubePrinter._make_table` reads
(`summ.header`, `summ.vector_sections.values()`,
`summ.scalar_sections.values()`). -/
structure Summary where
  header : FullHeader
  vector_sections : List VectorSection
  scalar_sections : List ScalarSection
  deriving DecidableEq, Repr

/-- Whether the character list `p` occurs at the start of `s`. -/
def charsStartWith : List Char → List Char → Bool
  | [], _ => true
  | _ :: _, [] => false
  | c :: cs, d :: es => c = d && charsStartWith cs es

/-- Whether the character list `p` occurs anywhere inside `s` (Python's
`in` on strings). -/
def charsHaveSub (p : List Char) : List Char → Bool
  | [] => p.isEmpty
  | c :: rest => charsStartWith p (c :: rest) || charsHaveSub p rest

/-- Python's `needle in title.lower()` for an ASCII needle. -/
def titleHas (needle title : String) : Bool :=
  charsHaveSub needle.data (title.data.map Char.toLower)

/-- `" " * 5`: the section indent of `_make_table` (default
`n_indent_section=5`). -/
def sectIndent : String := "     "

/-- The item indent of `_make_table` (section indent plus
`n_indent_item=5`). -/
def itemIndent : String := "          "

/-- One `add_scalar(name, value)` row of `_make_table`. -/
def addScalar (nDims : Nat) (name value : String) : List String :=
  (itemIndent ++ name) :: value :: List.replicate (2 * nDims) ""

/-- The rows `_make_table` appends for one vector section: a section-title
row, then one row per entry with its `dim_chars` spread over the dimension
columns.  (The `extra_string` row the source builds is never appended to the
table — the source constructs `column_texts` for it and drops it.) -/
def vectorSectionRows (nDims : Nat) (sect : VectorSection) :
    List (List String) :=
  if sect.contents.isEmpty then []
  else
    ((sectIndent ++ sect.title) :: "" :: List.replicate (2 * nDims) "") ::
      sect.contents.map (fun vs =>
        (itemIndent ++ vs.name) :: "" ::
          vs.dim_chars.flatMap (fun ch => ["", ch]))

/-- The rows `_make_table` appends for one scalar section, dispatching on
the lowercased section title exactly as the source does: "scalar coordinate"
sections add one row per item from `.name`/`.content`; "attribute" sections
zip `.names` with `.values`; "scalar cell measure" and "cell method"
sections are "just strings"; any other title with content raises
`ValueError("Unknown section type : ...")`. -/
def scalarSectionRows (nDims : Nat) (sect : ScalarSection) :
    Except String (List (List String)) :=
  if sect.contents.isEmpty then .ok []
  else
    let headRow : List String :=
      (sectIndent ++ sect.title) :: "" :: List.replicate (2 * nDims) ""
    if titleHas "scalar coordinate" sect.title then
      .ok (headRow :: sect.contents.map (fun it =>
        addScalar nDims it.name it.content))
    else if titleHas "attribute" sect.title then
      .ok (headRow :: (sect.names.zip sect.values).map (fun p =>
        addScalar nDims p.1 p.2))
    else if titleHas "scalar cell measure" sect.title ||
            titleHas "cell method" sect.title then
      .ok (headRow :: sect.contents.map (fun it =>
        addScalar nDims it.name ""))
    else
      .error ("Unknown section type : " ++ sect.title)

/-- The scalar-section rows of all scalar sections in order; the first
failing section's error propagates (the source's loop raises there). -/
def scalarRowsAll (nDims : Nat) :
    List ScalarSection → Except String (List (List String))
  | [] => .ok []
  | s :: ss =>
    match scalarSectionRows nDims s, scalarRowsAll nDims ss with
    | .ok rs, .ok rest => .ok (rs ++ rest)
    | .error e, _ => .error e
    | .ok _, .error e => .error e

/-- `CubePrinter._make_table`, returning the table's rows (header row
first): asserts the cube is not scalar and that the shape length equals the
dimension count, sets up the header columns, then appends the vector-section
and scalar-section rows. -/
def makeTable (summ : Summary) : Except String (List (List String)) :=
  let dh := summ.header.dimension_header
  if dh.scalar then .error "assertion failed: not cube_is_scalar"
  else if dh.shape.length ≠ dh.dim_names.length then
    .error "assertion failed: len(cube_shape) == n_dims"
  else
    let nDims := dh.dim_names.length
    let headerRow : List String :=
      summ.header.nameunit :: "" ::
        (dh.dim_names.zip dh.shape).flatMap (fun p =>
          [p.1 ++ ":", Nat.repr p.2])
    let vecRows := summ.vector_sections.flatMap (vectorSectionRows nDims)
    match scalarRowsAll nDims summ.scalar_sections with
    | .ok srows => .ok (headerRow :: (vecRows ++ srows))
    | .error e => .error e

/-- A well-formed non-scalar header shared by the concrete summaries. -/
def okHeader : FullHeader :=
  { nameunit := "air_temperature / (K)",
    dimension_header :=
      { scalar := false, shape := [3, 4], dim_names := ["lat0", "lon0"] } }

/-- A scalar section whose title matches no recognized section kind and
whose contents are empty: the source skips it silently. -/
def emptyBogusSection : ScalarSection :=
  { title := "Mystery items:", contents := [], names := [], values := [] }

/-- A scalar section whose title matches no recognized section kind and
whose contents are non-empty: the source raises on it. -/
def bogusSection : ScalarSection :=
  { title := "Mystery items:",
    contents := [{ name := "thing", content := "stuff" }],
    names := [], values := [] }

/-- A summary containing only the unrecognized-and-empty scalar section. -/
def emptyBogusSummary : Summary :=
  { header := okHeader, vector_sections := [],
    scalar_sections := [emptyBogusSection] }

/-- A summary containing an unrecognized scalar section with content. -/
def bogusSummary : Summary :=
  { header := okHeader, vector_sections := [],
    scalar_sections := [bogusSection] }

/-- A summary whose scalar sections all carry recognized titles. -/
def okSummary : Summary :=
  { header := okHeader,
    vector_sections :=
      [{ title := "Dimension coordinates:",
         contents := [{ name := "lat0", dim_chars := ["x", "-"],
                        extra := "" }] }],
    scalar_sections :=
      [{ title := "Scalar coordinates:",
         contents := [{ name := "height", content := "1.5 m" }],
         names := [], values := [] },
       { title := "Attributes:",
         contents := [{ name := "STASH", content := "" }],
         names := ["STASH"], values := ["m01s03i236"] },
       { title := "Cell methods:",
         contents := [{ name := "mean: time", content := "" }],
         names := [], values := [] },
       { title := "Scalar cell measures:", contents := [],
         names := [], values := [] }] }

end IrisPrintout

namespace IrisCF

theorem mem_dedupNames {a : String} : ∀ {l : List String},
    a ∈ dedupNames l ↔ a ∈ l := by
  intro l
  induction l with
  | nil => simp [dedupNames]
  | cons x xs ih =>
    by_cases hax : a = x
    · subst hax; simp [dedupNames]
    · simp [dedupNames, List.mem_filter, hax, ih]

theorem find_eq_some {ds : Dataset} {n : String} {w : CFVar}
    (h : ds.find n = some w) : w.name = n ∧ w ∈ ds.vars := by
  refine ⟨?_, List.mem_of_find?_eq_some h⟩
  have := List.find?_some h
  simpa using this

theorem find_isSome_of_mem {ds : Dataset} {w : CFVar} (hw : w ∈ ds.vars) :
    (ds.find w.name).isSome := by
  rcases h : ds.find w.name with _ | u
  · rw [Dataset.find, List.find?_eq_none] at h
    exact absurd (by simp) (h w hw)
  · rfl

theorem mem_cfGroupNames {ds : Dataset} {v : CFVar} {n : String} :
    n ∈ cfGroupNames ds v ↔
      n ∈ resolvedRefs ds v ∨ n ∈ referencers ds v ∨
        n ∈ spannedDimCoords ds v := by
  simp [cfGroupNames, mem_dedupNames, List.mem_append, or_assoc]

theorem mem_resolvedRefs {ds : Dataset} {v : CFVar} {n : String} :
    n ∈ resolvedRefs ds v ↔
      n ∈ referencedNames v ∧ n ≠ v.name ∧ (ds.find n).isSome := by
  simp [resolvedRefs, List.mem_filter, and_assoc]

theorem mem_referencers {ds : Dataset} {v : CFVar} {n : String} :
    n ∈ referencers ds v ↔
      ∃ w ∈ ds.vars, w.name = n ∧ w.name ≠ v.name ∧
        v.name ∈ referencedNames w := by
  simp only [referencers, List.mem_map, List.mem_filter]
  constructor
  · rintro ⟨w, ⟨hw, hcond⟩, hname⟩
    simp only [Bool.and_eq_true, decide_eq_true_eq, List.elem_iff] at hcond
    exact ⟨w, hw, hname, by simpa [hname] using hcond.1, hcond.2⟩
  · rintro ⟨w, hw, hname, hne, href⟩
    refine ⟨w, ⟨hw, ?_⟩, hname⟩
    simp [hne, List.elem_iff, href]

theorem mem_referencedNames_of_refsVia {v : CFVar} {a n : String}
    (ha : a ∈ refAttrs) (hn : n ∈ v.refsVia a) : n ∈ referencedNames v := by
  simp only [referencedNames, List.mem_flatMap]
  exact ⟨a, ha, hn⟩

end IrisCF

namespace IrisCF

theorem getAttr_of_not_declared (st : MockStore) (c : CacheState)
    (a : String) (ha : a ∉ c.declared) : getAttr st c a = (none, c) := by
  simp [getAttr, ha]

theorem getAttr_of_cached (st : MockStore) (c : CacheState) (a v : String)
    (ha : a ∈ c.declared) (hl : c.fetched.lookup a = some v) :
    getAttr st c a = (some v, { c with used := touch c.used a }) := by
  simp [getAttr, ha, hl]

theorem getAttr_of_uncached (st : MockStore) (c : CacheState) (a : String)
    (ha : a ∈ c.declared) (hl : c.fetched.lookup a = none) :
    getAttr st c a = (some (st.attrValue a),
      { c with fetched := (a, st.attrValue a) :: c.fetched,
               used := touch c.used a,
               valueFetches := a :: c.valueFetches }) := by
  simp [getAttr, ha, hl]

theorem getAttr_preserves (st : MockStore) (c : CacheState) (a : String)
    (hinv : ∀ b, c.valueFetches.count b ≤
      (if (c.fetched.lookup b).isSome then 1 else 0)) :
    ((getAttr st c a).2).nameSetFetches = c.nameSetFetches ∧
    ((getAttr st c a).2).declared = c.declared ∧
    ∀ b, ((getAttr st c a).2).valueFetches.count b ≤
      (if (((getAttr st c a).2).fetched.lookup b).isSome then 1 else 0) := by
  by_cases ha : a ∈ c.declared
  · rcases hl : c.fetched.lookup a with _ | v
    · rw [getAttr_of_uncached st c a ha hl]
      refine ⟨rfl, rfl, ?_⟩
      intro b
      by_cases hb : b = a
      · subst hb
        have h0 : c.valueFetches.count b = 0 := by
          have := hinv b
          simpa [hl] using this
        simp [List.count_cons, h0, List.lookup]
      · have hba : (b == a) = false := by simp [hb]
        have := hinv b
        have hab : (a == b) = false := by simp [Ne.symm hb]
        simp only [List.count_cons, List.lookup, hba, hab]
        simpa using this
    · rw [getAttr_of_cached st c a v ha hl]
      exact ⟨rfl, rfl, hinv⟩
  · rw [getAttr_of_not_declared st c a ha]
    exact ⟨rfl, rfl, hinv⟩

theorem runGets_preserves (st : MockStore) (gets : List String) :
    ∀ c : CacheState,
    (∀ b, c.valueFetches.count b ≤
      (if (c.fetched.lookup b).isSome then 1 else 0)) →
    (runGets st c gets).nameSetFetches = c.nameSetFetches ∧
    (runGets st c gets).declared = c.declared ∧
    ∀ b, (runGets st c gets).valueFetches.count b ≤
      (if ((runGets st c gets).fetched.lookup b).isSome then 1 else 0) := by
  induction gets with
  | nil => intro c h; exact ⟨rfl, rfl, h⟩
  | cons a as ih =>
    intro c h
    have hg := getAttr_preserves st c a h
    have hr := ih ((getAttr st c a).2) hg.2.2
    exact ⟨hr.1.trans hg.1, hr.2.1.trans hg.2.1, hr.2.2⟩

end IrisCF

namespace IrisPrintout

theorem scalarSectionRows_unknown (nDims : Nat) (sect : ScalarSection)
    (hne : sect.contents ≠ [])
    (h1 : titleHas "scalar coordinate" sect.title = false)
    (h2 : titleHas "attribute" sect.title = false)
    (h3 : titleHas "scalar cell measure" sect.title = false)
    (h4 : titleHas "cell method" sect.title = false) :
    scalarSectionRows nDims sect =
      .error ("Unknown section type : " ++ sect.title) := by
  have hce : sect.contents.isEmpty = false := by
    cases h : sect.contents
    · exact absurd h hne
    · rfl
  simp [scalarSectionRows, hce, h1, h2, h3, h4]

theorem exists_ok_of_isOk {α : Type} {e : Except String α}
    (h : e.isOk = true) : ∃ x, e = .ok x := by
  cases e with
  | error e2 => simp [Except.isOk, Except.toBool] at h
  | ok x => exact ⟨x, rfl⟩

theorem scalarSectionRows_recognized (nDims : Nat) (sect : ScalarSection)
    (h : titleHas "scalar coordinate" sect.title = true ∨
         titleHas "attribute" sect.title = true ∨
         titleHas "scalar cell measure" sect.title = true ∨
         titleHas "cell method" sect.title = true) :
    ∃ rs, scalarSectionRows nDims sect = .ok rs := by
  apply exists_ok_of_isOk
  by_cases hc : sect.contents.isEmpty
  · simp [scalarSectionRows, hc, Except.isOk, Except.toBool]
  · by_cases h1 : titleHas "scalar coordinate" sect.title
    · simp [scalarSectionRows, hc, h1, Except.isOk, Except.toBool]
    · by_cases h2 : titleHas "attribute" sect.title
      · simp [scalarSectionRows, hc, h1, h2, Except.isOk, Except.toBool]
      · by_cases h3 : titleHas "scalar cell measure" sect.title
        · simp [scalarSectionRows, hc, h1, h2, h3, Except.isOk,
            Except.toBool]
        · by_cases h4 : titleHas "cell method" sect.title
          · simp [scalarSectionRows, hc, h1, h2, h3, h4, Except.isOk,
              Except.toBool]
          · rcases h with h | h | h | h <;> simp_all

theorem scalarRowsAll_error_of_mem (nDims : Nat) (l : List ScalarSection)
    (sect : ScalarSection) (hmem : sect ∈ l) (e₀ : String)
    (herr : scalarSectionRows nDims sect = .error e₀) :
    ∃ e, scalarRowsAll nDims l = .error e := by
  induction l with
  | nil => cases hmem
  | cons s ss ih =>
    rcases List.mem_cons.mp hmem with rfl | hmem2
    · exact ⟨e₀, by simp [scalarRowsAll, herr]⟩
    · rcases hh : scalarSectionRows nDims s with e2 | rs
      · exact ⟨e2, by simp [scalarRowsAll, hh]⟩
      · obtain ⟨e, he⟩ := ih hmem2
        exact ⟨e, by simp [scalarRowsAll, hh, he]⟩

theorem scalarRowsAll_ok (nDims : Nat) (l : List ScalarSection)
    (h : ∀ sect ∈ l, ∃ rs, scalarSectionRows nDims sect = .ok rs) :
    ∃ rows, scalarRowsAll nDims l = .ok rows := by
  induction l with
  | nil => exact ⟨[], rfl⟩
  | cons s ss ih =>
    obtain ⟨rs, hs⟩ := h s (by simp)
    obtain ⟨rest, hrest⟩ := ih (fun t ht => h t (by simp [ht]))
    exact ⟨rs ++ rest, by simp [scalarRowsAll, hs, hrest]⟩

end IrisPrintout

namespace IrisCF

/-- C1 (amended): after construction, a variable's `cf_group` contains
exactly the names it references via its name-valued attributes that resolve,
plus the names of variables referencing it back, plus the coordinate
variables of the dimensions it spans; and every resolved reference adds a
mutual edge — the referenced variable's `cf_group` contains the
referencer. -/
theorem cfGroup_membership_and_mutual_edges (ds : Dataset) (v : CFVar)
    (hv : v ∈ ds.vars) :
    (∀ n, n ∈ cfGroupNames ds v ↔
        n ∈ resolvedRefs ds v ∨ n ∈ referencers ds v ∨
          n ∈ spannedDimCoords ds v) ∧
    (∀ n w, n ∈ resolvedRefs ds v → ds.find n = some w →
        v.name ∈ cfGroupNames ds w) := by
  refine ⟨fun n => mem_cfGroupNames, ?_⟩
  intro n w hn hfind
  obtain ⟨hwname, hwmem⟩ := find_eq_some hfind
  obtain ⟨href, hne, -⟩ := mem_resolvedRefs.mp hn
  refine mem_cfGroupNames.mpr (Or.inr (Or.inl ?_))
  refine mem_referencers.mpr ⟨v, hv, rfl, ?_, ?_⟩
  · rw [hwname]; exact Ne.symm hne
  · rw [hwname]; exact href

/-- Witness for C1's amended theorem at the `pr` variable of the
rotated-pole test dataset. -/
theorem cfGroup_membership_and_mutual_edges_w :
    prVar ∈ rotPoleDS.vars ∧
    ((∀ n, n ∈ cfGroupNames rotPoleDS prVar ↔
        n ∈ resolvedRefs rotPoleDS prVar ∨
          n ∈ referencers rotPoleDS prVar ∨
          n ∈ spannedDimCoords rotPoleDS prVar) ∧
     (∀ n w, n ∈ resolvedRefs rotPoleDS prVar → rotPoleDS.find n = some w →
        prVar.name ∈ cfGroupNames rotPoleDS w)) :=
  ⟨by decide, cfGroup_membership_and_mutual_edges rotPoleDS prVar (by decide)⟩

/-- C1 counterexample: in the rotated-pole test dataset (the dataset of
`test_variable_cf_group_pass_0`), `rlat` is in the data variable `pr`'s
cf_group although `pr` references no such name and `rlat` references
nothing: the group is not exactly the resolved references plus the
referencers. -/
theorem cfGroup_not_exactly_one_hop :
    hasCategory rotPoleDS prVar .data = true ∧
    "rlat" ∈ cfGroupNames rotPoleDS prVar ∧
    "rlat" ∉ referencedNames prVar ∧
    "rlat" ∉ referencers rotPoleDS prVar ∧
    "rlat" ∉ specOneHopNames rotPoleDS prVar := by decide

/-- C9: a variable's `cf_group` also contains the coordinate variable of
every dimension the variable spans, even when no reference attribute names
it (`pr`'s attributes name only `lon`, `lat` and `rotated_pole`, yet `rlat`,
`rlon` and `time` are in its group), and this inclusion is not mutual
(`time`'s group is exactly `{time_bnds}`, without `pr`). -/
theorem cfGroup_spanned_dimension_coordinates :
    (∀ ds v d, d ∈ spannedDimCoords ds v → d ∈ cfGroupNames ds v) ∧
    cfGroupNames rotPoleDS prVar =
      ["lon", "lat", "rotated_pole", "time", "rlat", "rlon"] ∧
    referencedNames prVar = ["lon", "lat", "rotated_pole"] ∧
    spannedDimCoords rotPoleDS prVar = ["time", "rlat", "rlon"] ∧
    hasCategory rotPoleDS prVar .data = true ∧
    isCoordinateVar timeVar = true ∧
    cfGroupNames rotPoleDS timeVar = ["time_bnds"] ∧
    "pr" ∉ cfGroupNames rotPoleDS timeVar := by
  refine ⟨?_, by decide, by decide, by decide, by decide, by decide,
    by decide, by decide⟩
  intro ds v d hd
  exact mem_cfGroupNames.mpr (Or.inr (Or.inr hd))

/-- C8: a referenced name that resolves to no variable of the dataset is
silently dropped — it appears in no variable's cf_group and in no category
view — while its direct lookup is the NotFound condition (`find` returns
`none`); group construction is total and raises nothing. -/
theorem dangling_references_dropped (ds : Dataset) (n : String)
    (h : ds.find n = none) :
    (∀ v, n ∉ cfGroupNames ds v) ∧ (∀ c, n ∉ categoryNames ds c) := by
  have hnone : ∀ w ∈ ds.vars, w.name ≠ n := by
    intro w hw
    rw [Dataset.find, List.find?_eq_none] at h
    simpa using h w hw
  constructor
  · intro v hmem
    rcases mem_cfGroupNames.mp hmem with hr | hr | hr
    · obtain ⟨-, -, hsome⟩ := mem_resolvedRefs.mp hr
      rw [h] at hsome
      exact absurd hsome (by simp)
    · obtain ⟨w, hw, hwn, -⟩ := mem_referencers.mp hr
      exact hnone w hw hwn
    · rw [spannedDimCoords, List.mem_filter] at hr
      obtain ⟨-, hcond⟩ := hr
      rw [h] at hcond
      simp at hcond
  · intro c hmem
    rw [categoryNames, List.mem_map] at hmem
    obtain ⟨w, hw, hwn⟩ := hmem
    rw [categoryView, List.mem_filter] at hw
    exact hnone w hw.1 hwn

/-- Witness for C8 on a dataset whose variable `x` has a dangling
"coordinates" reference to the non-existent `ghost`: construction yields an
empty group for `x`, and `ghost` is nowhere. -/
theorem dangling_references_dropped_w :
    danglDS.find "ghost" = none ∧
    "ghost" ∈ referencedNames ghostRefVar ∧
    cfGroupNames danglDS ghostRefVar = [] ∧
    ((∀ v, "ghost" ∉ cfGroupNames danglDS v) ∧
     (∀ c, "ghost" ∉ categoryNames danglDS c)) :=
  ⟨by decide, by decide, by decide,
   dangling_references_dropped danglDS "ghost" (by decide)⟩

end IrisCF

namespace IrisCF

/-- C2: for a label variable and a data variable, `cf_label_dimensions` is
the subsequence of the data variable's dimensions that the label also spans
(possibly a strict subset), and `cf_label_data`'s first element corresponds
to index 0 along the shared dimension, regardless of the label's own
storage-dimension order and of where the shared dimension sits in the data
variable's ordering — concretely, the `region_name` label spanning
`georegion` (at position 1 of the data variable) yields `("georegion",)` and
first label `"Anglian"`, and the `institution` label (shared dimension at
position 0 of the data variable, and last in the label's own storage order)
yields `("ensemble",)` and first label `"ECMWF"`. -/
theorem label_dimensions_and_data_alignment :
    (∀ L D : CFVar, List.Sublist (cf_label_dimensions L D) D.dimensions ∧
        (∀ d, d ∈ cf_label_dimensions L D ↔
            d ∈ D.dimensions ∧ d ∈ L.dimensions) ∧
        (cf_label_data L D).head? = L.labelData.head?) ∧
    tempVar.dimensions = ["time", "georegion"] ∧
    cf_label_dimensions regionNameVar tempVar = ["georegion"] ∧
    (cf_label_data regionNameVar tempVar).head? = some "Anglian" ∧
    tasVar.dimensions = ["ensemble", "time", "lat2", "lon2"] ∧
    instLabelVar.dimensions = ["strlen", "ensemble"] ∧
    cf_label_dimensions instLabelVar tasVar = ["ensemble"] ∧
    (cf_label_data instLabelVar tasVar).head? = some "ECMWF" ∧
    cfGroupView climDS tempVar .label = ["region_name"] := by
  refine ⟨?_, by decide, by decide, by decide, by decide, by decide,
    by decide, by decide, by decide⟩
  intro L D
  refine ⟨List.filter_sublist _, ?_, rfl⟩
  intro d
  simp [cf_label_dimensions, List.mem_filter, List.elem_iff]

/-- C6: a coordinate variable whose "climatology" attribute names an
existing variable gets that variable into the climatology sub-group of its
cf_group. -/
theorem climatology_subgroup_entry (ds : Dataset) (v : CFVar) (n : String)
    (w : CFVar) (hv : v ∈ ds.vars) (hn : n ∈ v.refsVia "climatology")
    (hne : n ≠ v.name) (hw : ds.find n = some w) :
    n ∈ cfGroupView ds v .climatology := by
  have href : n ∈ referencedNames v :=
    mem_referencedNames_of_refsVia (by decide) hn
  have hres : n ∈ resolvedRefs ds v :=
    mem_resolvedRefs.mpr ⟨href, hne, by rw [hw]; rfl⟩
  have hgrp : n ∈ cfGroupNames ds v := mem_cfGroupNames.mpr (Or.inl hres)
  have hcat : hasCategory ds w .climatology = true := by
    obtain ⟨hwname, -⟩ := find_eq_some hw
    show referencedBy ds "climatology" w.name = true
    rw [referencedBy, List.any_eq_true]
    refine ⟨v, hv, ?_⟩
    rw [hwname]
    exact List.elem_iff.mpr hn
  rw [cfGroupView, List.mem_filter]
  refine ⟨hgrp, ?_⟩
  show (match ds.find n with
        | some u => hasCategory ds u Category.climatology
        | none => false) = true
  rw [hw]
  exact hcat

/-- Witness for C6 at the river test dataset of `TestClimatology`: the time
coordinate's climatology sub-group has exactly the one entry
`climatology_bounds`, of ndim 2 and shape (1, 2), and the time coordinate is
reached from the data variable's own group. -/
theorem climatology_subgroup_entry_w :
    (climTimeVar ∈ climDS.vars ∧
     "climatology_bounds" ∈ climTimeVar.refsVia "climatology" ∧
     "climatology_bounds" ≠ climTimeVar.name ∧
     climDS.find "climatology_bounds" = some climBoundsVar) ∧
    cfGroupView climDS climTimeVar .climatology = ["climatology_bounds"] ∧
    climBoundsVar.ndim = 2 ∧
    climBoundsVar.shape = [1, 2] ∧
    "time" ∈ cfGroupView climDS tempVar .coordinate ∧
    "climatology_bounds" ∈ cfGroupView climDS climTimeVar .climatology :=
  ⟨by decide, by decide, by decide, by decide, by decide,
   climatology_subgroup_entry climDS climTimeVar "climatology_bounds"
     climBoundsVar (by decide) (by decide) (by decide) (by decide)⟩

/-- C3: constructing a variable wrapper fetches the backing attribute-name
set exactly once; any sequence of attribute reads afterwards triggers no
further fetch of that set, and each attribute's value is fetched from the
store at most once for the life of the cache. -/
theorem attribute_name_set_fetched_once (st : MockStore)
    (gets : List String) :
    (initCache st).nameSetFetches = 1 ∧
    (runGets st (initCache st) gets).nameSetFetches = 1 ∧
    (runGets st (initCache st) gets).declared = st.attrNames ∧
    ∀ a, (runGets st (initCache st) gets).valueFetches.count a ≤ 1 := by
  have h0 : ∀ b, (initCache st).valueFetches.count b ≤
      (if ((initCache st).fetched.lookup b).isSome then 1 else 0) := by
    intro b; simp [initCache]
  have h := runGets_preserves st gets (initCache st) h0
  refine ⟨rfl, h.1.trans rfl, h.2.1.trans rfl, ?_⟩
  intro a
  refine le_trans (h.2.2 a) ?_
  split <;> simp

/-- C4: with declared attributes (A, B, C) in the deterministic declared
(name-sorted) order, reading A and B makes `cf_attrs_used` exactly
((A, va), (B, vb)) in declaration order and `cf_attrs_unused` exactly
((C, vc)); after `cf_attrs_reset`, used is empty and unused is the full
declared set again, and resetting never alters category assignments. -/
theorem touch_round_trip (v : CFVar) (A B C va vb vc : String)
    (hattrs : v.attributes = [(A, va), (B, vb), (C, vc)])
    (hAB : strLe A B = true) (hBC : strLe B C = true)
    (hab : A ≠ B) (hbc : B ≠ C) (hac : A ≠ C) :
    cf_attrs_used ⟨v, []⟩ = [] ∧
    cf_attrs_unused ⟨v, []⟩ = [(A, va), (B, vb), (C, vc)] ∧
    cf_attrs_used (readAttr (readAttr ⟨v, []⟩ A) B) = [(A, va), (B, vb)] ∧
    cf_attrs_unused (readAttr (readAttr ⟨v, []⟩ A) B) = [(C, vc)] ∧
    cf_attrs_used (cf_attrs_reset (readAttr (readAttr ⟨v, []⟩ A) B)) = [] ∧
    cf_attrs_unused (cf_attrs_reset (readAttr (readAttr ⟨v, []⟩ A) B)) =
      [(A, va), (B, vb), (C, vc)] ∧
    ∀ ds cat,
      hasCategory ds
        (cf_attrs_reset (readAttr (readAttr ⟨v, []⟩ A) B)).var cat =
      hasCategory ds v cat := by
  have hsorted : sortAttrs v.attributes = [(A, va), (B, vb), (C, vc)] := by
    rw [hattrs]
    simp [sortAttrs, insertAttrSorted, hAB, hBC]
  have hused : (readAttr (readAttr ⟨v, []⟩ A) B).usedAttrs = [B, A] := by
    simp [readAttr, touch, Ne.symm hab]
  have hvar : (readAttr (readAttr ⟨v, []⟩ A) B).var = v := rfl
  refine ⟨?_, ?_, ?_, ?_, ?_, ?_, fun ds cat => rfl⟩
  · simp [cf_attrs_used, cf_attrs, hsorted]
  · simp [cf_attrs_unused, cf_attrs, hsorted]
  · simp [cf_attrs_used, cf_attrs, hvar, hsorted, hused, List.filter,
      hab, hbc, hac, Ne.symm hab, Ne.symm hbc, Ne.symm hac]
  · simp [cf_attrs_unused, cf_attrs, hvar, hsorted, hused, List.filter,
      hab, hbc, hac, Ne.symm hab, Ne.symm hbc, Ne.symm hac]
  · simp [cf_attrs_used, cf_attrs, cf_attrs_reset, hvar, hsorted]
  · simp [cf_attrs_unused, cf_attrs, cf_attrs_reset, hvar, hsorted]

/-- Witness for C4 at the `lat` variable of the rotated-pole test dataset
(reading `long_name` and `standard_name`, with `units` left untouched). -/
theorem touch_round_trip_w :
    cf_attrs_used (readAttr (readAttr ⟨latVar, []⟩ "long_name")
        "standard_name") =
      [("long_name", "latitude"), ("standard_name", "latitude")] ∧
    cf_attrs_unused (readAttr (readAttr ⟨latVar, []⟩ "long_name")
        "standard_name") =
      [("units", "degrees_north")] ∧
    cf_attrs_used (cf_attrs_reset (readAttr (readAttr ⟨latVar, []⟩
        "long_name") "standard_name")) = [] := by
  have h := touch_round_trip latVar "long_name" "standard_name" "units"
    "latitude" "latitude" "degrees_north" (by decide) (by decide)
    (by decide) (by decide) (by decide) (by decide)
  exact ⟨h.2.2.1, h.2.2.2.1, h.2.2.2.2.1⟩

/-- C5: `cf_attrs_reset` / cache reset changes only the used/unused
classification: the declared attribute set and every fetched value are
retained, and a repeat read of a previously fetched attribute after reset
returns the cached value without touching the backing store (no new
name-set or value fetch), while being recorded as used again. -/
theorem reset_retains_cache (st : MockStore) (c : CacheState) (a v : String)
    (ha : a ∈ c.declared) (hv : c.fetched.lookup a = some v) :
    (cacheReset c).declared = c.declared ∧
    (cacheReset c).fetched = c.fetched ∧
    (cacheReset c).used = [] ∧
    (getAttr st (cacheReset c) a).1 = some v ∧
    ((getAttr st (cacheReset c) a).2).fetched = c.fetched ∧
    ((getAttr st (cacheReset c) a).2).valueFetches = c.valueFetches ∧
    ((getAttr st (cacheReset c) a).2).nameSetFetches = c.nameSetFetches ∧
    a ∈ ((getAttr st (cacheReset c) a).2).used := by
  have ha2 : a ∈ (cacheReset c).declared := ha
  have hv2 : (cacheReset c).fetched.lookup a = some v := hv
  rw [getAttr_of_cached st (cacheReset c) a v ha2 hv2]
  refine ⟨rfl, rfl, rfl, rfl, rfl, rfl, rfl, ?_⟩
  simp [cacheReset, touch]

/-- Witness for C5 at a concrete cache that has fetched and used `x`:
after reset, re-reading `x` returns the cached value, adds no store
fetch, and is recorded as used again. -/
theorem reset_retains_cache_w :
    (cacheReset cacheStateX).used = [] ∧
    (getAttr mockStoreX (cacheReset cacheStateX) "x").1 = some "val" ∧
    ((getAttr mockStoreX (cacheReset cacheStateX) "x").2).valueFetches =
      cacheStateX.valueFetches ∧
    "x" ∈ ((getAttr mockStoreX (cacheReset cacheStateX) "x").2).used := by
  have h := reset_retains_cache mockStoreX cacheStateX "x" "val"
    (by decide) (by decide)
  exact ⟨h.2.2.1, h.2.2.2.1, h.2.2.2.2.2.1, h.2.2.2.2.2.2.2⟩

end IrisCF

namespace IrisPrintout

theorem exists_error_of_not_isOk {α : Type} {e : Except String α}
    (h : e.isOk = false) : ∃ msg, e = .error msg := by
  cases e with
  | error msg => exact ⟨msg, rfl⟩
  | ok x => simp [Except.isOk, Except.toBool] at h

/-- C7 (amended): a scalar section with non-empty contents whose title
matches none of the recognized section kinds (scalar coordinate, attribute,
scalar cell measure, cell method) makes `_make_table` raise a fatal
`ValueError` rather than warn or skip, while a summary whose scalar
sections all carry recognized titles (and whose header passes the
assertions) is assembled without error; a section with empty contents is
skipped before its title is examined. -/
theorem unknown_section_fatal (summ : Summary) :
    (∀ sect ∈ summ.scalar_sections, sect.contents ≠ [] →
        titleHas "scalar coordinate" sect.title = false →
        titleHas "attribute" sect.title = false →
        titleHas "scalar cell measure" sect.title = false →
        titleHas "cell method" sect.title = false →
        ∃ e, makeTable summ = .error e) ∧
    ((∀ sect ∈ summ.scalar_sections,
        titleHas "scalar coordinate" sect.title = true ∨
        titleHas "attribute" sect.title = true ∨
        titleHas "scalar cell measure" sect.title = true ∨
        titleHas "cell method" sect.title = true) →
      summ.header.dimension_header.scalar = false →
      summ.header.dimension_header.shape.length =
        summ.header.dimension_header.dim_names.length →
      ∃ rows, makeTable summ = .ok rows) := by
  constructor
  · intro sect hmem hne h1 h2 h3 h4
    by_cases hs : summ.header.dimension_header.scalar
    · exact ⟨"assertion failed: not cube_is_scalar",
        by simp [makeTable, hs]⟩
    · by_cases hl : summ.header.dimension_header.shape.length =
        summ.header.dimension_header.dim_names.length
      · obtain ⟨e, he⟩ := scalarRowsAll_error_of_mem
          summ.header.dimension_header.dim_names.length
          summ.scalar_sections sect hmem _
          (scalarSectionRows_unknown _ sect hne h1 h2 h3 h4)
        apply exists_error_of_not_isOk
        simp [makeTable, hs, hl, he, Except.isOk, Except.toBool]
      · exact ⟨"assertion failed: len(cube_shape) == n_dims",
          by simp [makeTable, hs, hl]⟩
  · intro hall hs hl
    obtain ⟨rows, hrows⟩ := scalarRowsAll_ok
      summ.header.dimension_header.dim_names.length
      summ.scalar_sections
      (fun sect hmem => scalarSectionRows_recognized _ sect (hall sect hmem))
    apply exists_ok_of_isOk
    simp [makeTable, hs, hl, hrows, Except.isOk, Except.toBool]

/-- C7 counterexample: a scalar section whose title matches no recognized
kind but whose contents are empty is silently skipped — `_make_table`
succeeds on a summary containing it, producing just the header row. -/
theorem unknown_empty_section_skipped :
    emptyBogusSection ∈ emptyBogusSummary.scalar_sections ∧
    emptyBogusSection.contents = [] ∧
    titleHas "scalar coordinate" emptyBogusSection.title = false ∧
    titleHas "attribute" emptyBogusSection.title = false ∧
    titleHas "scalar cell measure" emptyBogusSection.title = false ∧
    titleHas "cell method" emptyBogusSection.title = false ∧
    makeTable emptyBogusSummary =
      .ok [["air_temperature / (K)", "", "lat0:", "3", "lon0:", "4"]] ∧
    (makeTable bogusSummary).isOk = false ∧
    (makeTable okSummary).isOk = true :=
  ⟨by decide, by decide, by decide, by decide, by decide, by decide,
   by rfl, by decide, by decide⟩

/-- C10: `_make_table` asserts, for every input summary, that the cube is
not scalar and that the length of its shape equals the number of its
dimension names: a scalar-cube summary, or a shape/dimension-count
mismatch, makes construction fail at the corresponding assertion instead of
producing a table. -/
theorem makeTable_header_assertions (summ : Summary) :
    (summ.header.dimension_header.scalar = true →
      makeTable summ = .error "assertion failed: not cube_is_scalar") ∧
    (summ.header.dimension_header.scalar = false →
      summ.header.dimension_header.shape.length ≠
        summ.header.dimension_header.dim_names.length →
      makeTable summ =
        .error "assertion failed: len(cube_shape) == n_dims") := by
  constructor
  · intro hs; simp [makeTable, hs]
  · intro hs hl; simp [makeTable, hs, hl]

end IrisPrintout
